import Mathlib

/-!
Verification development for the Zelda64 sequence-volume editor.

The repository contains two historical implementations of the same tool:
the older `Zelda64_Seqvol_Editor.py` (functions written in CAPITALS:
`PARSE_SEQ`, `GET_MSG_STRING`, `FIX_JUMP`, ...) and the newer rewrite in
`part_000` (lowercase names: `parse_seq`, `get_msg_string`, `fix_jump`,
...).  Both are embedded below.  Files are modelled as `List Nat` of byte
values, the seekable file handle by explicit positions, and the
process-global output/address lists by an explicit `ParseState` threaded
through the decode loop.
-/

/-- ANSI escape `YELLOW` from both sources. -/
def YELLOW : String := "\x1b[33m"

/-- ANSI escape `PINK_218` from both sources. -/
def PINK_218 : String := "\x1b[38;5;218m"

/-- ANSI escape `RESET` from both sources. -/
def RESET : String := "\x1b[0m"

/-- Lowercase hexadecimal digit character, as produced by Python `hex()`. -/
def hexDigitL (n : Nat) : Char :=
  if n < 10 then Char.ofNat (48 + n) else Char.ofNat (87 + n)

/-- Uppercase hexadecimal digit character, as produced by Python `%X` formatting. -/
def hexDigitU (n : Nat) : Char :=
  if n < 10 then Char.ofNat (48 + n) else Char.ofNat (55 + n)

/-- Base-16 digit values, least significant first, with explicit fuel so that
the definition is structurally recursive (the fuel branch is unreachable when
the fuel is at least the number). -/
def hexDigitsRevGo : Nat → Nat → List Nat
  | 0, n => [n]
  | fuel + 1, n => if n < 16 then [n] else n % 16 :: hexDigitsRevGo fuel (n / 16)

/-- Base-16 digit values of `n`, least significant first (always nonempty:
`hex(0)` is `"0"`). -/
def hexDigitsRev (n : Nat) : List Nat :=
  hexDigitsRevGo n n

/-- Minimal-length lowercase hex digits of `n`, most significant first:
Python `hex(n)[2:]`. -/
def hexMinL (n : Nat) : List Char :=
  (hexDigitsRev n).reverse.map hexDigitL

/-- Minimal-length uppercase hex digits of `n`, most significant first:
Python `f'{n:X}'`. -/
def hexMinU (n : Nat) : List Char :=
  (hexDigitsRev n).reverse.map hexDigitU

/-- Left-pad a character list with `c` to length `k` (Python zero-padded
width formatting keeps longer inputs unchanged). -/
def padLeft (c : Char) (k : Nat) (l : List Char) : List Char :=
  List.replicate (k - l.length) c ++ l

/-- Python `f'{n:02X}'`. -/
def pad2U (n : Nat) : List Char := padLeft '0' 2 (hexMinU n)

/-- Python `f'{n:04X}'`. -/
def pad4U (n : Nat) : List Char := padLeft '0' 4 (hexMinU n)

/-- Python `str.ljust(k)` with spaces. -/
def ljust (s : String) (k : Nat) : String :=
  s ++ String.mk (List.replicate (k - s.length) ' ')

/-- Python `str.upper()` (all characters in the formatted records are ASCII). -/
def strUpper (s : String) : String :=
  String.mk (s.data.map Char.toUpper)

/-- Python `' '.join(...)`. -/
def joinSp : List String → String
  | [] => ""
  | [s] => s
  | s :: rest => s ++ " " ++ joinSp rest

/-- The two game variants (`SeqVersion` enum in both sources). -/
inductive SeqVersion where
  | OOT
  | MM
  deriving Repr, DecidableEq

/-- Argument width tags used by the readers (`'u8'`, `'u16'`, `'s16'`). -/
inductive ArgSize where
  | u8
  | u16
  | s16
  deriving Repr, DecidableEq

/-- The `MessageData` dataclass of `part_000` (the old implementation's
readers return the same values positionally). -/
structure MessageData where
  arg_addr_1 : Option Nat := none
  arg_addr_2 : Option Nat := none
  msg_byte : Nat := 0xFF
  arg_1 : Option (Nat × ArgSize) := none
  arg_2 : Option (Nat × ArgSize) := none
  pos : Nat := 2
  deriving Repr, DecidableEq

/-- `read_msg` / `READ_MSG`: one opcode byte, no arguments.  `none` models a
`struct.unpack` failure on a short read. -/
def read_msg (f : List Nat) (offset : Nat) : Option MessageData := do
  let b0 ← f.get? offset
  some { msg_byte := b0 }

/-- `read_argvar` / `READ_ARGVAR`: variable-length delay.  If the length byte
has its high bit set the argument is the big-endian 16-bit quantity at
`offset+1..offset+2` and the instruction is 3 bytes; otherwise the argument is
the byte at `offset+1` and the instruction is 2 bytes.  The argument address
is `offset + 1` in both cases. -/
def read_argvar (f : List Nat) (offset arglen : Nat) : Option MessageData :=
  if arglen &&& 0x80 ≠ 0 then do
    let b0 ← f.get? offset
    let b1 ← f.get? (offset + 1)
    let b2 ← f.get? (offset + 2)
    some { arg_addr_1 := some (offset + 1), msg_byte := b0,
           arg_1 := some (b1 * 256 + b2, ArgSize.u16), pos := 3 }
  else do
    let b0 ← f.get? offset
    let b1 ← f.get? (offset + 1)
    some { arg_addr_1 := some (offset + 1), msg_byte := b0,
           arg_1 := some (b1, ArgSize.u8) }

/-- `read_u8` / `READ_U8`: one u8 argument at `offset+1`. -/
def read_u8 (f : List Nat) (offset : Nat) : Option MessageData := do
  let b0 ← f.get? offset
  let b1 ← f.get? (offset + 1)
  some { arg_addr_1 := some (offset + 1), msg_byte := b0,
         arg_1 := some (b1, ArgSize.u8) }

/-- `read_u8x2` / `READ_U8x2`: two u8 arguments at `offset+1`, `offset+2`. -/
def read_u8x2 (f : List Nat) (offset : Nat) : Option MessageData := do
  let b0 ← f.get? offset
  let b1 ← f.get? (offset + 1)
  let b2 ← f.get? (offset + 2)
  some { arg_addr_1 := some (offset + 1), arg_addr_2 := some (offset + 2),
         msg_byte := b0, arg_1 := some (b1, ArgSize.u8),
         arg_2 := some (b2, ArgSize.u8) }

/-- `read_u8_u16` / `READ_U8_U16`: a u8 at `offset+1` and a big-endian u16 at
`offset+2..offset+3`. -/
def read_u8_u16 (f : List Nat) (offset : Nat) : Option MessageData := do
  let b0 ← f.get? offset
  let b1 ← f.get? (offset + 1)
  let b2 ← f.get? (offset + 2)
  let b3 ← f.get? (offset + 3)
  some { arg_addr_1 := some (offset + 1), arg_addr_2 := some (offset + 2),
         msg_byte := b0, arg_1 := some (b1, ArgSize.u8),
         arg_2 := some (b2 * 256 + b3, ArgSize.u16) }

/-- `read_u16` / `READ_U16`: one big-endian u16 argument at `offset+1..offset+2`. -/
def read_u16 (f : List Nat) (offset : Nat) : Option MessageData := do
  let b0 ← f.get? offset
  let b1 ← f.get? (offset + 1)
  let b2 ← f.get? (offset + 2)
  some { arg_addr_1 := some (offset + 1), msg_byte := b0,
         arg_1 := some (b1 * 256 + b2, ArgSize.u16) }

/-- `read_s16_u8` / `READ_S16_U8`: a 16-bit argument at `offset+1..offset+2`
(tagged `s16`; the source unpacks it with the unsigned `>H` format, so the raw
value is kept) and a u8 at `offset+3`. -/
def read_s16_u8 (f : List Nat) (offset : Nat) : Option MessageData := do
  let b0 ← f.get? offset
  let b1 ← f.get? (offset + 1)
  let b2 ← f.get? (offset + 2)
  let b3 ← f.get? (offset + 3)
  some { arg_addr_1 := some (offset + 1), arg_addr_2 := some (offset + 3),
         msg_byte := b0, arg_1 := some (b1 * 256 + b2, ArgSize.s16),
         arg_2 := some (b3, ArgSize.u8) }

/-- `format_addr` of `part_000`: `f'@{addr:04X}'[-5:]`. -/
def format_addr (addr : Nat) : String :=
  let s := '@' :: pad4U addr
  String.mk (s.drop (s.length - 5))

/-- `format_args` of `part_000`: space-joined hex renderings of the present
arguments, 4 digits for `u16`/`s16` and 2 digits for `u8`. -/
def format_args (args : List (Option (Nat × ArgSize))) : String :=
  joinSp
    ((args.filterMap id).map fun a =>
      match a.2 with
      | ArgSize.u16 => String.mk (pad4U a.1)
      | ArgSize.s16 => String.mk (pad4U a.1)
      | ArgSize.u8 => String.mk (pad2U a.1))

/-- `get_msg_string` of `part_000`. -/
def get_msg_string (addr : Nat) (msg : Option Nat)
    (args : List (Option (Nat × ArgSize))) : String :=
  match msg with
  | none => "  unk_msg           @???? ?? ?? ??"
  | some m =>
    let hex_args := format_args args
    let spacing := if hex_args ≠ "" then " " else ""
    strUpper (format_addr addr ++ ": " ++ String.mk (pad2U m) ++ spacing
      ++ hex_args)

/-- The `hex_addr` branch chain inside the old `GET_MSG_STRING`
(lowercase digits; the uppercase conversion happens on the whole message). -/
def oldHexAddr (addr : Nat) : List Char :=
  if 0x1000 ≤ addr then '@' :: hexMinL addr
  else if 0x100 ≤ addr then '@' :: '0' :: hexMinL addr
  else if 0x10 ≤ addr then '@' :: '0' :: '0' :: hexMinL addr
  else '@' :: '0' :: '0' :: '0' :: hexMinL addr

/-- `GET_MSG_STRING` of the old implementation: padded address, 2-digit
message byte, unpadded argument digits, all uppercased at the end.  The
source only handles 0, 1 or 2 arguments (more would fall off the end of the
function and is never reached). -/
def GET_MSG_STRING (addr msg : Nat) (args : List Nat) : String :=
  let hex_addr := String.mk (oldHexAddr addr)
  let hex_msg :=
    if msg < 0x10 then "0" ++ String.mk (hexMinL msg)
    else String.mk (hexMinL msg)
  let base :=
    match args.map (fun a => String.mk (hexMinL a)) with
    | [] => hex_addr ++ ": " ++ hex_msg
    | [a1] => hex_addr ++ ": " ++ hex_msg ++ " " ++ a1
    | a1 :: a2 :: _ => hex_addr ++ ": " ++ hex_msg ++ " " ++ a1 ++ " " ++ a2
  strUpper base

/-- Which reading strategy a table entry names (`read_func` field of
`SeqMessage`); `runk` is the `0xC2` lambda that returns a bare tuple. -/
inductive ReadFunc where
  | rmsg
  | rargvar
  | ru8
  | ru8x2
  | ru8u16
  | ru16
  | rs16u8
  | runk
  deriving Repr, DecidableEq

/-- Which process-global address list a table entry appends to
(`extra_output_list` field of `SeqMessage`). -/
inductive Collector where
  | mstrVol
  | eqJump
  | ltJump
  | gteqJump
  | reqJump
  | rltJump
  deriving Repr, DecidableEq

/-- The `SeqMessage` dataclass of `part_000`. -/
structure SeqMessage where
  name : String
  read_func : ReadFunc
  byte_size : Option Nat
  color : Option String := none
  extra_output_list : Option Collector := none
  version_check : Option SeqVersion := none
  deriving Repr, DecidableEq

/-- The `SEQ_MESSAGES` table of `part_000` as a lookup function (the Python
dict maps each opcode value, with the ARGBITS ranges expanded, to one
descriptor; `.get` on a missing key gives `none`). -/
def SEQ_MESSAGES (op : Nat) : Option SeqMessage :=
  if op = 0xFF then some ⟨"end", ReadFunc.rmsg, some 1, none, none, none⟩
  else if op = 0xFE then some ⟨"delay1", ReadFunc.rmsg, some 1, none, none, none⟩
  else if op = 0xFD then some ⟨"delay", ReadFunc.rargvar, none, none, none, none⟩
  else if op = 0xFC then some ⟨"call", ReadFunc.ru16, some 3, none, none, none⟩
  else if op = 0xFB then some ⟨"jump", ReadFunc.ru16, some 3, none, none, none⟩
  else if op = 0xFA then some ⟨"eqjump", ReadFunc.ru16, some 3, some YELLOW, some Collector.eqJump, none⟩
  else if op = 0xF9 then some ⟨"ltjump", ReadFunc.ru16, some 3, some YELLOW, some Collector.ltJump, none⟩
  else if op = 0xF8 then some ⟨"loop", ReadFunc.ru8, some 2, none, none, none⟩
  else if op = 0xF7 then some ⟨"loopend", ReadFunc.rmsg, some 1, none, none, none⟩
  else if op = 0xF6 then some ⟨"loopbreak", ReadFunc.rmsg, some 1, none, none, none⟩
  else if op = 0xF5 then some ⟨"gteqjump", ReadFunc.ru16, some 3, some YELLOW, some Collector.gteqJump, none⟩
  else if op = 0xF4 then some ⟨"rjump", ReadFunc.ru8, some 2, none, none, none⟩
  else if op = 0xF3 then some ⟨"reqjump", ReadFunc.ru8, some 2, some YELLOW, some Collector.reqJump, none⟩
  else if op = 0xF2 then some ⟨"rltjump", ReadFunc.ru8, some 2, some YELLOW, some Collector.rltJump, none⟩
  else if op = 0xF1 then some ⟨"reservenotes", ReadFunc.ru8, some 2, none, none, none⟩
  else if op = 0xF0 then some ⟨"releasenotes", ReadFunc.ru8, some 2, none, none, none⟩
  else if op = 0xEF then some ⟨"print3", ReadFunc.rs16u8, some 4, none, none, none⟩
  else if op = 0xDF then some ⟨"transpose", ReadFunc.ru8, some 2, none, none, none⟩
  else if op = 0xDE then some ⟨"rtranspose", ReadFunc.ru8, some 2, none, none, none⟩
  else if op = 0xDD then some ⟨"tempo", ReadFunc.ru8, some 2, none, none, none⟩
  else if op = 0xDC then some ⟨"addtempo", ReadFunc.ru8, some 2, none, none, none⟩
  else if op = 0xDB then some ⟨"mstrvol", ReadFunc.ru8, some 2, some PINK_218, some Collector.mstrVol, none⟩
  else if op = 0xDA then some ⟨"fade", ReadFunc.ru8u16, some 4, none, none, none⟩
  else if op = 0xD9 then some ⟨"mstrexpression", ReadFunc.ru8, some 2, none, none, none⟩
  else if op = 0xD7 then some ⟨"enablechan", ReadFunc.ru16, some 3, none, none, none⟩
  else if op = 0xD6 then some ⟨"disablechan", ReadFunc.ru16, some 3, none, none, none⟩
  else if op = 0xD5 then some ⟨"mutescale", ReadFunc.ru8, some 2, none, none, none⟩
  else if op = 0xD4 then some ⟨"mute", ReadFunc.rmsg, some 1, none, none, none⟩
  else if op = 0xD3 then some ⟨"mutebhv", ReadFunc.ru8, some 2, none, none, none⟩
  else if op = 0xD2 then some ⟨"loadshortvel", ReadFunc.ru16, some 3, none, none, none⟩
  else if op = 0xD1 then some ⟨"loadshortgate", ReadFunc.ru16, some 3, none, none, none⟩
  else if op = 0xD0 then some ⟨"notealloc", ReadFunc.ru8, some 2, none, none, none⟩
  else if op = 0xCE then some ⟨"rand", ReadFunc.ru8, some 2, none, none, none⟩
  else if op = 0xCD then some ⟨"dyncall", ReadFunc.ru16, some 3, none, none, none⟩
  else if op = 0xCC then some ⟨"load", ReadFunc.ru8, some 2, none, none, none⟩
  else if op = 0xC9 then some ⟨"and", ReadFunc.ru8, some 2, none, none, none⟩
  else if op = 0xC8 then some ⟨"sub", ReadFunc.ru8, some 2, none, none, none⟩
  else if op = 0xC7 then some ⟨"storeseq", ReadFunc.ru8u16, some 4, none, none, none⟩
  else if op = 0xC6 then some ⟨"stop", ReadFunc.rmsg, some 1, none, none, none⟩
  else if op = 0xC5 then some ⟨"scriptctr", ReadFunc.ru16, some 3, none, none, none⟩
  else if op = 0xC4 then some ⟨"callseq", ReadFunc.ru8x2, some 3, none, none, none⟩
  else if op = 0xC3 then some ⟨"mutechan", ReadFunc.ru16, some 3, none, none, some SeqVersion.MM⟩
  else if op = 0xC2 then some ⟨"unk_msg", ReadFunc.runk, some 3, none, none, some SeqVersion.MM⟩
  else if op ≤ 0x0F then some ⟨"testchan", ReadFunc.rmsg, some 1, none, none, none⟩
  else if 0x40 ≤ op ∧ op ≤ 0x4F then some ⟨"stopchan", ReadFunc.rmsg, some 1, none, none, none⟩
  else if 0x50 ≤ op ∧ op ≤ 0x5F then some ⟨"subio", ReadFunc.rmsg, some 1, none, none, none⟩
  else if 0x60 ≤ op ∧ op ≤ 0x6F then some ⟨"loadres", ReadFunc.ru8x2, some 3, none, none, none⟩
  else if 0x70 ≤ op ∧ op ≤ 0x7F then some ⟨"storeio", ReadFunc.rmsg, some 1, none, none, none⟩
  else if 0x80 ≤ op ∧ op ≤ 0x8F then some ⟨"loadio", ReadFunc.rmsg, some 1, none, none, none⟩
  else if 0x90 ≤ op ∧ op ≤ 0x9F then some ⟨"loadchan", ReadFunc.ru16, some 3, none, none, none⟩
  else if 0xA0 ≤ op ∧ op ≤ 0xAF then some ⟨"rloadchan", ReadFunc.ru16, some 3, none, none, none⟩
  else if 0xB0 ≤ op ∧ op ≤ 0xBF then some ⟨"loadseq", ReadFunc.ru8u16, some 4, none, none, none⟩
  else none

/-- The process-global output and address lists of both implementations
(`SEQ_HEADER_OUTPUT`, `MSTR_VOL_ADDR` and the jump lists; `JUMP_ADDR` and
`RJUMP_ADDR` also exist in the sources but nothing ever appends to them). -/
structure ParseState where
  SEQ_HEADER_OUTPUT : List String := []
  MSTR_VOL_ADDR : List Nat := []
  EQJUMP_ADDR : List Nat := []
  LTJUMP_ADDR : List Nat := []
  GTEQJUMP_ADDR : List Nat := []
  REQJUMP_ADDR : List Nat := []
  RLTJUMP_ADDR : List Nat := []
  deriving Repr, DecidableEq

/-- Field-wise concatenation of two global states (used to state that a
decode pass only ever appends to the process-global lists). -/
def stateAppend (a b : ParseState) : ParseState where
  SEQ_HEADER_OUTPUT := a.SEQ_HEADER_OUTPUT ++ b.SEQ_HEADER_OUTPUT
  MSTR_VOL_ADDR := a.MSTR_VOL_ADDR ++ b.MSTR_VOL_ADDR
  EQJUMP_ADDR := a.EQJUMP_ADDR ++ b.EQJUMP_ADDR
  LTJUMP_ADDR := a.LTJUMP_ADDR ++ b.LTJUMP_ADDR
  GTEQJUMP_ADDR := a.GTEQJUMP_ADDR ++ b.GTEQJUMP_ADDR
  REQJUMP_ADDR := a.REQJUMP_ADDR ++ b.REQJUMP_ADDR
  RLTJUMP_ADDR := a.RLTJUMP_ADDR ++ b.RLTJUMP_ADDR

/-- Result of a decode pass: the global state afterwards, and whether the
pass aborted with a Python exception (short `struct` read, `ord` of an empty
read, or the `0xC2` lambda returning a tuple without MessageData fields). -/
structure ParseResult where
  state : ParseState
  crashed : Bool
  deriving Repr, DecidableEq

/-- Append one address to the collector list a descriptor designates. -/
def pushCollector (c : Collector) (a : Nat) (s : ParseState) : ParseState :=
  match c with
  | Collector.mstrVol => { s with MSTR_VOL_ADDR := s.MSTR_VOL_ADDR ++ [a] }
  | Collector.eqJump => { s with EQJUMP_ADDR := s.EQJUMP_ADDR ++ [a] }
  | Collector.ltJump => { s with LTJUMP_ADDR := s.LTJUMP_ADDR ++ [a] }
  | Collector.gteqJump => { s with GTEQJUMP_ADDR := s.GTEQJUMP_ADDR ++ [a] }
  | Collector.reqJump => { s with REQJUMP_ADDR := s.REQJUMP_ADDR ++ [a] }
  | Collector.rltJump => { s with RLTJUMP_ADDR := s.RLTJUMP_ADDR ++ [a] }

/-- Append one record string to `SEQ_HEADER_OUTPUT`. -/
def pushOut (str : String) (s : ParseState) : ParseState :=
  { s with SEQ_HEADER_OUTPUT := s.SEQ_HEADER_OUTPUT ++ [str] }

/-- Dispatch on the `read_func` field exactly as `parse_seq` does
(`read_argvar` gets the pre-read length byte; the `0xC2` lambda produces a
tuple on which the subsequent `msg_data.arg_2` access raises). -/
def runReader (r : ReadFunc) (f : List Nat) (pos arglen : Nat) :
    Option MessageData :=
  match r with
  | ReadFunc.rmsg => read_msg f pos
  | ReadFunc.rargvar => read_argvar f pos arglen
  | ReadFunc.ru8 => read_u8 f pos
  | ReadFunc.ru8x2 => read_u8x2 f pos
  | ReadFunc.ru8u16 => read_u8_u16 f pos
  | ReadFunc.ru16 => read_u16 f pos
  | ReadFunc.rs16u8 => read_s16_u8 f pos
  | ReadFunc.runk => none

/-- Record construction and global-list appends of one `parse_seq` loop body
(`part_000` lines 607-620): format the record, push it, and append
`arg_addr_1` (and a truthy `arg_addr_2`) to the designated collector list. -/
def applyEmit (s : ParseState) (m : SeqMessage) (md : MessageData)
    (opcode pos : Nat) : ParseState :=
  let msg_string :=
    if md.arg_2.isSome then get_msg_string pos (some opcode) [md.arg_1, md.arg_2]
    else get_msg_string pos (some opcode) [md.arg_1]
  let colorPre := match m.color with
    | some c => c ++ "  "
    | none => "  "
  let colorPost := match m.color with
    | some _ => RESET
    | none => ""
  let record := colorPre ++ ljust m.name 16 ++ msg_string ++ colorPost
  let s := pushOut record s
  match m.extra_output_list with
  | none => s
  | some coll =>
    let s := match md.arg_addr_1 with
      | some a => pushCollector coll a s
      | none => s
    match md.arg_addr_2 with
    | some a => if a = 0 then s else pushCollector coll a s
    | none => s

/-- The `while` loop of `parse_seq` in `part_000`.  `c` is the file cursor at
the loop-condition read (which doubles as the opcode read); fuel only bounds
the recursion, `f.length + 1` is always enough because the cursor strictly
increases. -/
def parse_seq_loop (f : List Nat) (version : SeqVersion) :
    Nat → Nat → ParseState → ParseResult
  | 0, _, s => ⟨s, true⟩
  | fuel + 1, c, s =>
    match f.get? c with
    | none => ⟨s, false⟩
    | some opcode =>
      match SEQ_MESSAGES opcode with
      | none => parse_seq_loop f version fuel (c + 1) s
      | some m =>
        if (match m.version_check with
            | some v => v != version
            | none => false) then
          parse_seq_loop f version fuel (c + 1) s
        else
          match f.get? (c + 1) with
          | none => ⟨s, true⟩
          | some arglen =>
            match runReader m.read_func f c arglen with
            | none => ⟨s, true⟩
            | some md =>
              let s' := applyEmit s m md opcode c
              if opcode = 0xFF then ⟨s', false⟩
              else parse_seq_loop f version fuel
                (c + (match m.byte_size with
                      | some k => k
                      | none => md.pos)) s'

/-- `parse_seq` of `part_000`: the priming `seq.read(1)` consumes the byte at
offset 0, so the loop starts reading opcodes at offset 1. -/
def parse_seq (f : List Nat) (version : SeqVersion) (s : ParseState) :
    ParseResult :=
  parse_seq_loop f version (f.length + 1) 1 s

/-- First argument value of a reader result (old `PARSE_SEQ` branches index
the unpacked tuple directly; the readers used always supply the argument). -/
def val1 (md : MessageData) : Nat :=
  match md.arg_1 with
  | some a => a.1
  | none => 0

/-- Second argument value of a reader result. -/
def val2 (md : MessageData) : Nat :=
  match md.arg_2 with
  | some a => a.1
  | none => 0

/-- Outcome of one old `PARSE_SEQ` loop body: `stop` is the `break` on the
end opcode, `crash` a `struct.unpack` failure, and `next cur pos` continues
with the file cursor at `cur` and the local `pos` variable at `pos`. -/
inductive OldAction where
  | stop (s : ParseState)
  | crash (s : ParseState)
  | next (cur pos : Nat) (s : ParseState)
  deriving Repr, DecidableEq

/-- Shared shape of the old branch bodies: run the reader (which re-seeks to
`pos` and reads `kRead` bytes, leaving the file cursor at `pos + kRead`),
append the formatted record, run the collector append, and advance the local
`pos` by `adv`. -/
def oldEmit (f : List Nat) (pos : Nat) (s : ParseState)
    (reader : List Nat → Nat → Option MessageData)
    (mk : MessageData → String)
    (collect : ParseState → ParseState)
    (kRead adv : Nat) : OldAction :=
  match reader f pos with
  | none => OldAction.crash s
  | some md => OldAction.next (pos + kRead) (pos + adv) (collect (pushOut (mk md) s))

/-- One loop body of the old `PARSE_SEQ`: re-seek to `pos`, read the byte
there (an empty read compares unequal to every branch literal and falls to
the final `else`), and dispatch through the `elif` chain. -/
def OLD_BODY (f : List Nat) (version : SeqVersion) (pos : Nat)
    (s : ParseState) : OldAction :=
  match f.get? pos with
  | none => OldAction.next pos (pos + 1) s
  | some b =>
    if b = 0xFF then
      match read_msg f pos with
      | none => OldAction.crash s
      | some md =>
        OldAction.stop (pushOut ("  end             " ++ GET_MSG_STRING pos md.msg_byte []) s)
    else if b = 0xFE then
      oldEmit f pos s read_msg (fun md => "  delay1          " ++ GET_MSG_STRING pos md.msg_byte []) id 1 1
    else if b = 0xFD then
      let arglen := match f.get? (pos + 1) with
        | some a => a
        | none => 0
      match read_argvar f pos arglen with
      | none => OldAction.crash s
      | some md =>
        OldAction.next (pos + md.pos) (pos + md.pos)
          (pushOut ("  delay           " ++ GET_MSG_STRING pos md.msg_byte [val1 md]) s)
    else if b = 0xFC then
      oldEmit f pos s read_u16 (fun md => "  call            " ++ GET_MSG_STRING pos md.msg_byte [val1 md]) id 3 3
    else if b = 0xFB then
      oldEmit f pos s read_u16 (fun md => "  jump            " ++ GET_MSG_STRING pos md.msg_byte [val1 md]) id 3 3
    else if b = 0xFA then
      oldEmit f pos s read_u16
        (fun md => YELLOW ++ "  eqjump          " ++ GET_MSG_STRING pos md.msg_byte [val1 md] ++ RESET)
        (fun s => { s with EQJUMP_ADDR := s.EQJUMP_ADDR ++ [pos] }) 3 3
    else if b = 0xF9 then
      oldEmit f pos s read_u16
        (fun md => YELLOW ++ "  ltjump          " ++ GET_MSG_STRING pos md.msg_byte [val1 md] ++ RESET)
        (fun s => { s with LTJUMP_ADDR := s.LTJUMP_ADDR ++ [pos] }) 3 3
    else if b = 0xF8 then
      oldEmit f pos s read_u8 (fun md => "  loop            " ++ GET_MSG_STRING pos md.msg_byte [val1 md]) id 2 2
    else if b = 0xF7 then
      oldEmit f pos s read_msg (fun md => "  loopend         " ++ GET_MSG_STRING pos md.msg_byte []) id 1 1
    else if b = 0xF6 then
      oldEmit f pos s read_msg (fun md => "  loopbreak       " ++ GET_MSG_STRING pos md.msg_byte []) id 1 1
    else if b = 0xF5 then
      oldEmit f pos s read_u16
        (fun md => YELLOW ++ "  gteqjump        " ++ GET_MSG_STRING pos md.msg_byte [val1 md] ++ RESET)
        (fun s => { s with GTEQJUMP_ADDR := s.GTEQJUMP_ADDR ++ [pos] }) 3 3
    else if b = 0xF4 then
      oldEmit f pos s read_u8 (fun md => "  rjump           " ++ GET_MSG_STRING pos md.msg_byte [val1 md]) id 2 2
    else if b = 0xF3 then
      oldEmit f pos s read_u8
        (fun md => YELLOW ++ "  reqjump         " ++ GET_MSG_STRING pos md.msg_byte [val1 md] ++ RESET)
        (fun s => { s with REQJUMP_ADDR := s.REQJUMP_ADDR ++ [pos] }) 2 2
    else if b = 0xF2 then
      oldEmit f pos s read_u8
        (fun md => YELLOW ++ "  rltjump         " ++ GET_MSG_STRING pos md.msg_byte [val1 md] ++ RESET)
        (fun s => { s with RLTJUMP_ADDR := s.RLTJUMP_ADDR ++ [pos] }) 2 2
    else if b = 0xF1 then
      oldEmit f pos s read_u8 (fun md => "  reservenotes    " ++ GET_MSG_STRING pos md.msg_byte [val1 md]) id 2 2
    else if b = 0xF0 then
      oldEmit f pos s read_u8 (fun md => "  releasenotes    " ++ GET_MSG_STRING pos md.msg_byte [val1 md]) id 2 2
    else if b = 0xEF then
      oldEmit f pos s read_s16_u8 (fun md => "  print3          " ++ GET_MSG_STRING pos md.msg_byte [val1 md, val2 md]) id 4 4
    else if b = 0xDF then
      oldEmit f pos s read_u8 (fun md => "  transpose       " ++ GET_MSG_STRING pos md.msg_byte [val1 md]) id 2 2
    else if b = 0xDE then
      oldEmit f pos s read_u8 (fun md => "  rtranspose      " ++ GET_MSG_STRING pos md.msg_byte [val1 md]) id 2 2
    else if b = 0xDD then
      oldEmit f pos s read_u8 (fun md => "  tempo           " ++ GET_MSG_STRING pos md.msg_byte [val1 md]) id 2 2
    else if b = 0xDC then
      oldEmit f pos s read_u8 (fun md => "  addtempo        " ++ GET_MSG_STRING pos md.msg_byte [val1 md]) id 2 2
    else if b = 0xDB then
      oldEmit f pos s read_u8
        (fun md => PINK_218 ++ "  mstrvol         " ++ GET_MSG_STRING pos md.msg_byte [val1 md] ++ RESET)
        (fun s => { s with MSTR_VOL_ADDR := s.MSTR_VOL_ADDR ++ [pos + 1] }) 2 2
    else if b = 0xDA then
      oldEmit f pos s read_u8_u16
        (fun md => "  fade            " ++ GET_MSG_STRING pos (val1 md) [val2 md]) id 4 3
    else if b = 0xD9 then
      oldEmit f pos s read_u8 (fun md => "  mstrexpression  " ++ GET_MSG_STRING pos md.msg_byte [val1 md]) id 2 2
    else if b = 0xD7 then
      oldEmit f pos s read_u16 (fun md => "  enablechan      " ++ GET_MSG_STRING pos md.msg_byte [val1 md]) id 3 3
    else if b = 0xD6 then
      oldEmit f pos s read_u16 (fun md => "  disablechan     " ++ GET_MSG_STRING pos md.msg_byte [val1 md]) id 3 3
    else if b = 0xD5 then
      oldEmit f pos s read_u8 (fun md => "  mutescale       " ++ GET_MSG_STRING pos md.msg_byte [val1 md]) id 2 2
    else if b = 0xD4 then
      oldEmit f pos s read_msg (fun md => "  mute            " ++ GET_MSG_STRING pos md.msg_byte []) id 1 1
    else if b = 0xD3 then
      oldEmit f pos s read_u8 (fun md => "  mutebhv         " ++ GET_MSG_STRING pos md.msg_byte [val1 md]) id 2 2
    else if b = 0xD2 then
      oldEmit f pos s read_u16 (fun md => "  loadshortvel    " ++ GET_MSG_STRING pos md.msg_byte [val1 md]) id 3 3
    else if b = 0xD1 then
      oldEmit f pos s read_u16 (fun md => "  loadshortgate   " ++ GET_MSG_STRING pos md.msg_byte [val1 md]) id 3 3
    else if b = 0xD0 then
      oldEmit f pos s read_u8 (fun md => "  notealloc       " ++ GET_MSG_STRING pos md.msg_byte [val1 md]) id 2 2
    else if b = 0xCE then
      oldEmit f pos s read_u8 (fun md => "  rand            " ++ GET_MSG_STRING pos md.msg_byte [val1 md]) id 2 2
    else if b = 0xCD then
      oldEmit f pos s read_u16 (fun md => "  dyncall         " ++ GET_MSG_STRING pos md.msg_byte [val1 md]) id 3 3
    else if b = 0xCC then
      oldEmit f pos s read_u8 (fun md => "  load            " ++ GET_MSG_STRING pos md.msg_byte [val1 md]) id 2 2
    else if b = 0xC9 then
      oldEmit f pos s read_u8 (fun md => "  and             " ++ GET_MSG_STRING pos md.msg_byte [val1 md]) id 2 2
    else if b = 0xC8 then
      oldEmit f pos s read_u8 (fun md => "  sub             " ++ GET_MSG_STRING pos md.msg_byte [val1 md]) id 2 2
    else if b = 0xC7 then
      oldEmit f pos s read_u8_u16 (fun md => "  storeseq        " ++ GET_MSG_STRING pos md.msg_byte [val1 md, val2 md]) id 4 4
    else if b = 0xC6 then
      oldEmit f pos s read_msg (fun md => "  stop            " ++ GET_MSG_STRING pos md.msg_byte []) id 1 1
    else if b = 0xC5 then
      oldEmit f pos s read_u16 (fun md => "  scriptctr        " ++ GET_MSG_STRING pos md.msg_byte [val1 md]) id 3 3
    else if b = 0xC4 then
      oldEmit f pos s read_u8x2 (fun md => "  callseq         " ++ GET_MSG_STRING pos md.msg_byte [val1 md, val2 md]) id 3 3
    else if b = 0xC3 ∧ version = SeqVersion.MM then
      oldEmit f pos s read_u16 (fun md => "  mutechan         " ++ GET_MSG_STRING pos md.msg_byte [val1 md]) id 3 3
    else if b = 0xC2 ∧ version = SeqVersion.MM then
      OldAction.next (pos + 1) (pos + 3) (pushOut "  unk_msg           @???? ?? ?? ??" s)
    else if b ≤ 0x0F then
      oldEmit f pos s read_msg (fun md => "  testchan        " ++ GET_MSG_STRING pos md.msg_byte []) id 1 1
    else if 0x40 ≤ b ∧ b ≤ 0x4F then
      oldEmit f pos s read_msg (fun md => "  stopchan        " ++ GET_MSG_STRING pos md.msg_byte []) id 1 1
    else if 0x50 ≤ b ∧ b ≤ 0x5F then
      oldEmit f pos s read_msg (fun md => "  subio           " ++ GET_MSG_STRING pos md.msg_byte []) id 1 1
    else if 0x60 ≤ b ∧ b ≤ 0x6F then
      oldEmit f pos s read_u8x2 (fun md => "  loadres         " ++ GET_MSG_STRING pos md.msg_byte [val1 md, val2 md]) id 3 3
    else if 0x70 ≤ b ∧ b ≤ 0x7F then
      oldEmit f pos s read_msg (fun md => "  storeio         " ++ GET_MSG_STRING pos md.msg_byte []) id 1 1
    else if 0x80 ≤ b ∧ b ≤ 0x8F then
      oldEmit f pos s read_msg (fun md => "  loadio          " ++ GET_MSG_STRING pos md.msg_byte []) id 1 1
    else if 0x90 ≤ b ∧ b ≤ 0x9F then
      oldEmit f pos s read_u16 (fun md => "  loadchan        " ++ GET_MSG_STRING pos md.msg_byte [val1 md]) id 3 3
    else if 0xA0 ≤ b ∧ b ≤ 0xAF then
      oldEmit f pos s read_u16 (fun md => "  rloadchan       " ++ GET_MSG_STRING pos md.msg_byte [val1 md]) id 3 3
    else if 0xB0 ≤ b ∧ b ≤ 0xBF then
      oldEmit f pos s read_u8_u16 (fun md => "  loadseq         " ++ GET_MSG_STRING pos md.msg_byte [val1 md, val2 md]) id 4 4
    else
      OldAction.next (pos + 1) (pos + 1) s

/-- The `while` loop of the old `PARSE_SEQ`: the loop condition reads one
byte at the file cursor `cur` (stopping on an empty read), then the body
re-seeks to `pos` and dispatches. -/
def OLD_PARSE_LOOP (f : List Nat) (version : SeqVersion) :
    Nat → Nat → Nat → ParseState → ParseResult
  | 0, _, _, s => ⟨s, true⟩
  | fuel + 1, cur, pos, s =>
    match f.get? cur with
    | none => ⟨s, false⟩
    | some _ =>
      match OLD_BODY f version pos s with
      | OldAction.stop s' => ⟨s', false⟩
      | OldAction.crash s' => ⟨s', true⟩
      | OldAction.next cur' pos' s' => OLD_PARSE_LOOP f version fuel cur' pos' s'

/-- `PARSE_SEQ` of the old implementation: the priming `seq.read(1)` moves
the cursor to 1 but `pos` stays 0, so decoding still starts at offset 0
(unlike the rewrite). -/
def PARSE_SEQ (f : List Nat) (version : SeqVersion) (s : ParseState) :
    ParseResult :=
  OLD_PARSE_LOOP f version (f.length + 2) 1 0 s

/-- `write_bin` of `part_000` (and `WRITE_BIN` of the old implementation):
seek to `addr` and overwrite one byte there.  Addresses passed in the program
always lie inside the file, where the write is a one-byte replacement. -/
def write_bin (f : List Nat) (addr value : Nat) : List Nat :=
  f.set addr value

/-- Old `WRITE_BIN`, identical to the rewrite's `write_bin`. -/
def WRITE_BIN (f : List Nat) (addr value : Nat) : List Nat :=
  f.set addr value

/-- `fix_jump` of `part_000` (old `FIX_JUMP` below): write `0xFB` at `addr`. -/
def fix_jump (f : List Nat) (addr : Nat) : List Nat :=
  f.set addr 0xFB

/-- Old `FIX_JUMP`: write `0xFB` at `addr`. -/
def FIX_JUMP (f : List Nat) (addr : Nat) : List Nat :=
  f.set addr 0xFB

/-- `fix_rjump` of `part_000`: write `0xF4` at `addr`. -/
def fix_rjump (f : List Nat) (addr : Nat) : List Nat :=
  f.set addr 0xF4

/-- Old `FIX_RJUMP`: write `0xF4` at `addr` (defined in the old source but
never called by its `main`). -/
def FIX_RJUMP (f : List Nat) (addr : Nat) : List Nat :=
  f.set addr 0xF4

/-- The jump-fixing phase of the old `main` (lines 1661-1682): every address
of all five collected lists, the relative ones included, is passed to
`FIX_JUMP`. -/
def OLD_MAIN_FIX_JUMPS (f : List Nat) (s : ParseState) : List Nat :=
  let f := s.EQJUMP_ADDR.foldl FIX_JUMP f
  let f := s.LTJUMP_ADDR.foldl FIX_JUMP f
  let f := s.GTEQJUMP_ADDR.foldl FIX_JUMP f
  let f := s.REQJUMP_ADDR.foldl FIX_JUMP f
  s.RLTJUMP_ADDR.foldl FIX_JUMP f

/-- The jump-fixing phase of `main` in `part_000` (the `jump_types` loop):
absolute-conditional addresses get `fix_jump`, relative-conditional addresses
get `fix_rjump`. -/
def main_fix_jumps (f : List Nat) (s : ParseState) : List Nat :=
  let f := s.EQJUMP_ADDR.foldl fix_jump f
  let f := s.LTJUMP_ADDR.foldl fix_jump f
  let f := s.GTEQJUMP_ADDR.foldl fix_jump f
  let f := s.REQJUMP_ADDR.foldl fix_rjump f
  s.RLTJUMP_ADDR.foldl fix_rjump f

/-- `auto_seq_edit` / `AUTO_SEQ_EDIT`: write the converted volume byte at
every collected master-volume address. -/
def auto_seq_edit (f : List Nat) (addrs : List Nat) (vol : Nat) : List Nat :=
  addrs.foldl (fun g a => write_bin g a vol) f

/-- A volume argument after `argparse` conversion: the percentage form keeps
a (Python float, modelled as a rational) and the plain form an integer. -/
inductive VolArg where
  | percent (q : ℚ)
  | intval (n : ℤ)
  deriving Repr, DecidableEq

/-- `check_vol` / `ArgParser.check_vol`: percentages outside 0-200 and
integers outside 0-255 are rejected with `parser.error` (modelled `none`). -/
def check_vol (v : VolArg) : Option VolArg :=
  match v with
  | VolArg.percent q => if q > 200 ∨ q < 0 then none else some (VolArg.percent q)
  | VolArg.intval n => if n > 0xFF ∨ n < 0x00 then none else some (VolArg.intval n)

/-- `check_input` / `ArgParser.CHECK_INPUT`: a float means a percentage and
becomes `ceil(value/100 * 127)`; anything else is used as the integer value.
`int.to_bytes(1, ...)` raises unless the result fits in one unsigned byte,
modelled by the range guard. -/
def check_input (v : VolArg) : Option Nat :=
  match v with
  | VolArg.percent q =>
    let result : ℤ := ⌈q / 100 * 127⌉
    if 0 ≤ result ∧ result ≤ 255 then some result.toNat else none
  | VolArg.intval n =>
    if 0 ≤ n ∧ n ≤ 255 then some n.toNat else none

/-! ## Helper lemmas -/

/-- Range of the converted percentage: for percentages between 0 and 200 the
ceiling value lands in `[0, 254]`. -/
theorem vol_ceil_range (q : ℚ) (h0 : 0 ≤ q) (h1 : q ≤ 200) :
    0 ≤ (⌈q / 100 * 127⌉ : ℤ) ∧ (⌈q / 100 * 127⌉ : ℤ) ≤ 254 := by
  constructor
  · exact Int.ceil_nonneg (by positivity)
  · apply Int.ceil_le.mpr
    push_cast
    linarith

/-- Folding single-byte writes of one value over an address list preserves
the file length. -/
theorem foldl_set_length (l : List Nat) (v : Nat) (f : List Nat) :
    (l.foldl (fun g a => g.set a v) f).length = f.length := by
  induction l generalizing f with
  | nil => rfl
  | cons a l ih =>
    simp only [List.foldl_cons]
    rw [ih]
    simp

/-- Byte read-back after folding single-byte writes of one value over an
address list: in-range addresses in the list hold the value afterwards, all
other in-range positions are untouched. -/
theorem foldl_set_get? (l : List Nat) (v : Nat) (f : List Nat) (i : Nat)
    (hi : i < f.length) :
    (l.foldl (fun g a => g.set a v) f).get? i =
      if i ∈ l then some v else f.get? i := by
  induction l generalizing f with
  | nil => simp
  | cons a l ih =>
    simp only [List.foldl_cons]
    rw [ih _ (by simpa using hi)]
    by_cases hmem : i ∈ l
    · simp [hmem]
    · by_cases hia : i = a
      · subst hia
        rw [List.get?_set_eq_of_lt _ hi]
        simp [hmem]
      · rw [List.get?_set_ne _ _ (fun h => hia h.symm)]
        simp [hmem, hia]

/-! ## C7 -/

/-- C7: the percentage-to-byte conversion computes `ceil(percent/100 * 127)`
for every accepted percentage, and in particular maps 50 to 64, 100 to 127,
0 to 0 and 200 to 254. -/
theorem c7_percent_conversion_is_ceil :
    (∀ q : ℚ, 0 ≤ q → q ≤ 200 →
      check_input (VolArg.percent q) = some (⌈q / 100 * 127⌉ : ℤ).toNat) ∧
    check_input (VolArg.percent 50) = some 64 ∧
    check_input (VolArg.percent 100) = some 127 ∧
    check_input (VolArg.percent 0) = some 0 ∧
    check_input (VolArg.percent 200) = some 254 := by
  have hgen : ∀ q : ℚ, 0 ≤ q → q ≤ 200 →
      check_input (VolArg.percent q) = some (⌈q / 100 * 127⌉ : ℤ).toNat := by
    intro q h0 h1
    obtain ⟨hc0, hc1⟩ := vol_ceil_range q h0 h1
    simp only [check_input]
    rw [if_pos ⟨hc0, by omega⟩]
  refine ⟨hgen, ?_, ?_, ?_, ?_⟩
  · rw [hgen 50 (by norm_num) (by norm_num)]
    have h : (⌈(50 : ℚ) / 100 * 127⌉ : ℤ) = 64 := by
      rw [Int.ceil_eq_iff]
      norm_num
    rw [h]
    rfl
  · rw [hgen 100 (by norm_num) (by norm_num)]
    have h : (⌈(100 : ℚ) / 100 * 127⌉ : ℤ) = 127 := by
      rw [Int.ceil_eq_iff]
      norm_num
    rw [h]
    rfl
  · rw [hgen 0 (by norm_num) (by norm_num)]
    have h : (⌈(0 : ℚ) / 100 * 127⌉ : ℤ) = 0 := by
      rw [Int.ceil_eq_iff]
      norm_num
    rw [h]
    rfl
  · rw [hgen 200 (by norm_num) (by norm_num)]
    have h : (⌈(200 : ℚ) / 100 * 127⌉ : ℤ) = 254 := by
      rw [Int.ceil_eq_iff]
      norm_num
    rw [h]
    rfl

/-- Witness for C7 at the concrete percentage 50. -/
theorem c7_witness :
    (0 : ℚ) ≤ 50 ∧ (50 : ℚ) ≤ 200 ∧
    check_input (VolArg.percent 50) = some (⌈(50 : ℚ) / 100 * 127⌉ : ℤ).toNat :=
  ⟨by norm_num, by norm_num,
    c7_percent_conversion_is_ceil.1 50 (by norm_num) (by norm_num)⟩

/-! ## C9 -/

/-- C9: every volume argument the CLI validator accepts converts to exactly
one byte without raising: the converted value fits in `[0, 255]`. -/
theorem c9_accepted_volume_always_converts (v : VolArg)
    (h : (check_vol v).isSome) :
    ∃ b, check_input v = some b ∧ b ≤ 255 := by
  cases v with
  | percent q =>
    have hq : ¬(q > 200 ∨ q < 0) := by
      intro hcon
      simp [check_vol, hcon] at h
    push_neg at hq
    obtain ⟨hc0, hc1⟩ := vol_ceil_range q (by linarith [hq.2]) hq.1
    refine ⟨(⌈q / 100 * 127⌉ : ℤ).toNat, ?_, ?_⟩
    · simp only [check_input]
      rw [if_pos ⟨hc0, by omega⟩]
    · omega
  | intval n =>
    have hn : ¬(n > 0xFF ∨ n < 0x00) := by
      intro hcon
      simp [check_vol, hcon] at h
    push_neg at hn
    refine ⟨n.toNat, ?_, ?_⟩
    · simp only [check_input]
      rw [if_pos ⟨by linarith [hn.2], by linarith [hn.1]⟩]
    · omega

/-- Witness for C9 at the accepted percentage 200. -/
theorem c9_witness :
    (check_vol (VolArg.percent 200)).isSome = true ∧
    ∃ b, check_input (VolArg.percent 200) = some b ∧ b ≤ 255 :=
  ⟨by decide, c9_accepted_volume_always_converts (VolArg.percent 200) (by decide)⟩

/-! ## C8 -/

/-- C8: for every valid address, the one-byte patch operations (`write_bin`
volume write, `fix_jump` and `fix_rjump` opcode rewrites) keep the file
length and leave every byte other than the patched one unchanged. -/
theorem c8_patch_changes_exactly_one_byte (f : List Nat) (addr v : Nat)
    (h : addr < f.length) :
    (write_bin f addr v).length = f.length ∧
    (write_bin f addr v).get? addr = some v ∧
    (∀ i, i ≠ addr → (write_bin f addr v).get? i = f.get? i) ∧
    (fix_jump f addr).length = f.length ∧
    (fix_jump f addr).get? addr = some 0xFB ∧
    (∀ i, i ≠ addr → (fix_jump f addr).get? i = f.get? i) ∧
    (fix_rjump f addr).length = f.length ∧
    (fix_rjump f addr).get? addr = some 0xF4 ∧
    (∀ i, i ≠ addr → (fix_rjump f addr).get? i = f.get? i) := by
  refine ⟨by simp [write_bin], List.get?_set_eq_of_lt _ h,
    fun i hi => List.get?_set_ne _ _ (fun hc => hi hc.symm),
    by simp [fix_jump], List.get?_set_eq_of_lt _ h,
    fun i hi => List.get?_set_ne _ _ (fun hc => hi hc.symm),
    by simp [fix_rjump], List.get?_set_eq_of_lt _ h,
    fun i hi => List.get?_set_ne _ _ (fun hc => hi hc.symm)⟩

/-- Witness for C8 on a concrete three-byte file. -/
theorem c8_witness :
    (1 < ([0xDB, 0x40, 0xFF] : List Nat).length) ∧
    (write_bin [0xDB, 0x40, 0xFF] 1 0x7F).length = 3 ∧
    (write_bin [0xDB, 0x40, 0xFF] 1 0x7F).get? 0 = some 0xDB := by
  refine ⟨by decide, ?_, ?_⟩
  · exact (c8_patch_changes_exactly_one_byte [0xDB, 0x40, 0xFF] 1 0x7F
      (by decide)).1
  · exact ((c8_patch_changes_exactly_one_byte [0xDB, 0x40, 0xFF] 1 0x7F
      (by decide)).2.2.1) 0 (by decide)

/-! ## C1 -/

/-- C1: on the stream `DB 40 FF` the old `PARSE_SEQ` behaves exactly as the
claim states (master-volume record at address 0, end record at address 2,
volume address list `[1]`, and after patching address 1 with `0x7F` the
re-decoded record reports argument `7F`), but the rewrite `parse_seq`
consumes the byte at offset 0 in its priming read: it decodes `40` at offset
1 as `stopchan`, collects no volume address, and aborts at the final `FF`
because the unconditional length-byte read runs past the end of the file. -/
theorem c1_db40ff_old_matches_new_skips_first_byte :
    PARSE_SEQ [0xDB, 0x40, 0xFF] SeqVersion.MM {} =
      ⟨{ SEQ_HEADER_OUTPUT :=
          [PINK_218 ++ "  mstrvol         @0000: DB 40" ++ RESET,
           "  end             @0002: FF"],
         MSTR_VOL_ADDR := [1] }, false⟩ ∧
    PARSE_SEQ (WRITE_BIN [0xDB, 0x40, 0xFF] 1 0x7F) SeqVersion.MM {} =
      ⟨{ SEQ_HEADER_OUTPUT :=
          [PINK_218 ++ "  mstrvol         @0000: DB 7F" ++ RESET,
           "  end             @0002: FF"],
         MSTR_VOL_ADDR := [1] }, false⟩ ∧
    parse_seq [0xDB, 0x40, 0xFF] SeqVersion.MM {} =
      ⟨{ SEQ_HEADER_OUTPUT := ["  stopchan        @0001: 40"] }, true⟩ := by
  refine ⟨by decide, by decide, by decide⟩

/-! ## C2 -/

/-- C2: in the rewrite, every address of the relative-conditional-jump lists
really is rewritten with the relative unconditional opcode `0xF4` by the
`jump_types` mutation loop; but the old `main` passes the `REQJUMP`/`RLTJUMP`
addresses to `FIX_JUMP`, so on `F3 05 FF` (one `reqjump` at address 0) it
writes the absolute opcode `0xFB` there instead of `0xF4`. -/
theorem c2_relative_jumps_get_rjump_opcode :
    (∀ (f : List Nat) (s : ParseState) (addr : Nat),
      addr ∈ s.REQJUMP_ADDR ++ s.RLTJUMP_ADDR → addr < f.length →
      (main_fix_jumps f s).get? addr = some 0xF4) ∧
    OLD_MAIN_FIX_JUMPS [0xF3, 0x05, 0xFF]
        (PARSE_SEQ [0xF3, 0x05, 0xFF] SeqVersion.MM {}).state =
      [0xFB, 0x05, 0xFF] := by
  constructor
  · intro f s addr hmem hlen
    have len_fix : ∀ (l g : List Nat), (l.foldl fix_jump g).length = g.length :=
      fun l g => foldl_set_length l 0xFB g
    have len_rfix : ∀ (l g : List Nat), (l.foldl fix_rjump g).length = g.length :=
      fun l g => foldl_set_length l 0xF4 g
    have get_rfix : ∀ (l g : List Nat) (i : Nat), i < g.length →
        (l.foldl fix_rjump g).get? i = if i ∈ l then some 0xF4 else g.get? i :=
      fun l g i hi => foldl_set_get? l 0xF4 g i hi
    unfold main_fix_jumps
    rcases List.mem_append.mp hmem with hreq | hrlt
    · by_cases hr : addr ∈ s.RLTJUMP_ADDR
      · rw [get_rfix _ _ _ (by rw [len_rfix, len_fix, len_fix, len_fix]; exact hlen),
          if_pos hr]
      · rw [get_rfix _ _ _ (by rw [len_rfix, len_fix, len_fix, len_fix]; exact hlen),
          if_neg hr,
          get_rfix _ _ _ (by rw [len_fix, len_fix, len_fix]; exact hlen),
          if_pos hreq]
    · rw [get_rfix _ _ _ (by rw [len_rfix, len_fix, len_fix, len_fix]; exact hlen),
        if_pos hrlt]
  · decide

/-- Witness for C2 on a concrete state with one collected reqjump address. -/
theorem c2_witness :
    (0 ∈ ({ REQJUMP_ADDR := [0] } : ParseState).REQJUMP_ADDR ++
        ({ REQJUMP_ADDR := [0] } : ParseState).RLTJUMP_ADDR) ∧
    (0 < ([0xF3, 0x05, 0xFF] : List Nat).length) ∧
    (main_fix_jumps [0xF3, 0x05, 0xFF] { REQJUMP_ADDR := [0] }).get? 0 =
      some 0xF4 :=
  ⟨by decide, by decide,
    c2_relative_jumps_get_rjump_opcode.1 [0xF3, 0x05, 0xFF]
      { REQJUMP_ADDR := [0] } 0 (by decide) (by decide)⟩

/-! ## C3 -/

/-- C3: on the stream `FA 00 10 FF` with jump-fixing requested, the old
implementation does what the claim says (the `eqjump` opcode byte at address
0 becomes `0xFB`, bytes 1-2 stay `00 10`); the rewrite skips the byte at
offset 0 entirely, collects no eqjump address, and leaves the file
unchanged. -/
theorem c3_fa0010ff_old_rewrites_new_does_not :
    OLD_MAIN_FIX_JUMPS [0xFA, 0x00, 0x10, 0xFF]
        (PARSE_SEQ [0xFA, 0x00, 0x10, 0xFF] SeqVersion.MM {}).state =
      [0xFB, 0x00, 0x10, 0xFF] ∧
    (parse_seq [0xFA, 0x00, 0x10, 0xFF] SeqVersion.MM {}).state.EQJUMP_ADDR = [] ∧
    main_fix_jumps [0xFA, 0x00, 0x10, 0xFF]
        (parse_seq [0xFA, 0x00, 0x10, 0xFF] SeqVersion.MM {}).state =
      [0xFA, 0x00, 0x10, 0xFF] := by
  refine ⟨by decide, by decide, by decide⟩

/-! ## C6 counterexample -/

/-- C6 fails as stated: the global lists are never cleared, so running the
decode pass a second time in the same process appends a second copy of every
record and address instead of reproducing the first pass's lists. -/
theorem c6_second_pass_differs :
    (parse_seq [0x00, 0xDB, 0x40, 0xFF, 0x00] SeqVersion.MM
        (parse_seq [0x00, 0xDB, 0x40, 0xFF, 0x00] SeqVersion.MM {}).state).state.SEQ_HEADER_OUTPUT ≠
      (parse_seq [0x00, 0xDB, 0x40, 0xFF, 0x00] SeqVersion.MM {}).state.SEQ_HEADER_OUTPUT ∧
    (parse_seq [0x00, 0xDB, 0x40, 0xFF, 0x00] SeqVersion.MM
        (parse_seq [0x00, 0xDB, 0x40, 0xFF, 0x00] SeqVersion.MM {}).state).state.MSTR_VOL_ADDR ≠
      (parse_seq [0x00, 0xDB, 0x40, 0xFF, 0x00] SeqVersion.MM {}).state.MSTR_VOL_ADDR := by
  refine ⟨by decide, by decide⟩

/-! ## C6 amended: a decode pass only appends, and what it appends is a
function of the bytes and variant alone -/

/-- Appending the empty state on the right is the identity. -/
theorem stateAppend_empty_right (s : ParseState) : stateAppend s {} = s := by
  simp [stateAppend]

/-- `stateAppend` is associative. -/
theorem stateAppend_assoc (a b c : ParseState) :
    stateAppend (stateAppend a b) c = stateAppend a (stateAppend b c) := by
  simp [stateAppend]

/-- `pushOut` only appends. -/
theorem pushOut_append (str : String) (s : ParseState) :
    pushOut str s = stateAppend s (pushOut str {}) := by
  simp [pushOut, stateAppend]

/-- One loop body's record/collector writes only append to the global state,
and what they append does not depend on the state already accumulated. -/
theorem applyEmit_append (s : ParseState) (m : SeqMessage) (md : MessageData)
    (opcode pos : Nat) :
    applyEmit s m md opcode pos = stateAppend s (applyEmit {} m md opcode pos) := by
  unfold applyEmit
  rcases m.extra_output_list with _ | coll
  · simp [pushOut, stateAppend]
  · rcases md.arg_addr_1 with _ | a1 <;> rcases md.arg_addr_2 with _ | a2 <;>
      cases coll <;>
      simp [pushOut, pushCollector, stateAppend] <;>
      split_ifs <;>
      simp [pushOut, pushCollector, stateAppend]

/-- The decode loop of the rewrite only appends to the global lists, and the
appended suffix (and the crash flag) is a function of the bytes, variant,
fuel and cursor alone. -/
theorem parse_seq_loop_append (f : List Nat) (version : SeqVersion) :
    ∀ (fuel c : Nat) (s : ParseState),
      parse_seq_loop f version fuel c s =
        ⟨stateAppend s (parse_seq_loop f version fuel c {}).state,
         (parse_seq_loop f version fuel c {}).crashed⟩ := by
  intro fuel
  induction fuel with
  | zero =>
    intro c s
    simp [parse_seq_loop, stateAppend_empty_right]
  | succ fuel ih =>
    intro c s
    simp only [parse_seq_loop]
    cases hget : f.get? c with
    | none => simp [hget, stateAppend_empty_right]
    | some opcode =>
      simp only [hget]
      cases htab : SEQ_MESSAGES opcode with
      | none =>
        simp only [htab]
        exact ih (c + 1) s
      | some m =>
        simp only [htab]
        cases hgate : (match m.version_check with
            | some v => v != version
            | none => false) with
        | true =>
          simp only [hgate, if_true]
          exact ih (c + 1) s
        | false =>
          simp only [hgate, if_false, Bool.false_eq_true]
          cases harg : f.get? (c + 1) with
          | none => simp [harg, stateAppend_empty_right]
          | some arglen =>
            simp only [harg]
            cases hrd : runReader m.read_func f c arglen with
            | none => simp [hrd, stateAppend_empty_right]
            | some md =>
              simp only [hrd]
              by_cases hff : opcode = 0xFF
              · simp only [if_pos hff]
                rw [applyEmit_append]
              · simp only [if_neg hff]
                rw [ih _ (applyEmit s m md opcode c),
                  ih _ (applyEmit {} m md opcode c),
                  applyEmit_append]
                simp [stateAppend_assoc]

/-- C6 amended: what one decode pass of `parse_seq` appends to the output
list and to every address list is a function of the bytes and the game
variant only — so two passes from a fresh state produce identical results,
while a second pass on the uncleared process globals yields the first pass's
lists with the same suffix appended again, not lists equal to the first
pass's. -/
theorem c6_pass_appends_function_of_bytes_only (f : List Nat)
    (version : SeqVersion) (s : ParseState) :
    parse_seq f version s =
      ⟨stateAppend s (parse_seq f version {}).state,
       (parse_seq f version {}).crashed⟩ :=
  parse_seq_loop_append f version (f.length + 1) 1 s

/-! ## C4 -/

set_option maxRecDepth 4000 in
/-- Every opcode value the table does not resolve lies in one of the gaps
between the exact entries and the ARGBITS ranges (or beyond one byte). -/
theorem seqmessages_none_classify (b : Nat) (h : SEQ_MESSAGES b = none) :
    (0x10 ≤ b ∧ b ≤ 0x3F) ∨ b = 0xC0 ∨ b = 0xC1 ∨ b = 0xCA ∨ b = 0xCB ∨
      b = 0xCF ∨ b = 0xD8 ∨ (0xE0 ≤ b ∧ b ≤ 0xEE) ∨ 0x100 ≤ b := by
  by_cases hb : b < 0x100
  · have hsmall : ∀ x, x < 0x100 → SEQ_MESSAGES x = none →
        (0x10 ≤ x ∧ x ≤ 0x3F) ∨ x = 0xC0 ∨ x = 0xC1 ∨ x = 0xCA ∨ x = 0xCB ∨
          x = 0xCF ∨ x = 0xD8 ∨ (0xE0 ≤ x ∧ x ≤ 0xEE) ∨ 0x100 ≤ x := by
      decide
    exact hsmall b hb h
  · exact Or.inr (Or.inr (Or.inr (Or.inr (Or.inr (Or.inr (Or.inr (Or.inr
      (by omega))))))))

set_option maxHeartbeats 1600000 in
/-- A byte the table does not resolve matches no branch of the old `elif`
chain either: the old body falls into the final `else` and just advances the
local position by one. -/
theorem OLD_BODY_unknown (f : List Nat) (version : SeqVersion) (pos : Nat)
    (s : ParseState) (b : Nat) (hpos : f.get? pos = some b)
    (hnone : SEQ_MESSAGES b = none) :
    OLD_BODY f version pos s = OldAction.next (pos + 1) (pos + 1) s := by
  have hcls := seqmessages_none_classify b hnone
  simp only [OLD_BODY, hpos]
  repeat
    rw [if_neg (by omega)]

/-- C4: an opcode byte that is neither an exact table entry nor inside any of
the table's opcode ranges makes both decoders advance exactly one byte, emit
no record, append to no address list, and continue at the next byte (the
state `s` passes through unchanged in both loop equations). -/
theorem c4_unknown_opcode_skips_one_byte (f : List Nat) (version : SeqVersion)
    (fuel c cur pos : Nat) (s : ParseState) (b w : Nat)
    (hb : f.get? c = some b) (hnone : SEQ_MESSAGES b = none)
    (hcur : f.get? cur = some w) (hpos : f.get? pos = some b) :
    parse_seq_loop f version (fuel + 1) c s =
      parse_seq_loop f version fuel (c + 1) s ∧
    OLD_PARSE_LOOP f version (fuel + 1) cur pos s =
      OLD_PARSE_LOOP f version fuel (pos + 1) (pos + 1) s := by
  constructor
  · simp only [parse_seq_loop, hb, hnone]
  · simp only [OLD_PARSE_LOOP, hcur,
      OLD_BODY_unknown f version pos s b hpos hnone]

/-- Witness for C4: the byte `0x10` is in neither the table nor a range, and
both decoders skip exactly it. -/
theorem c4_witness :
    ([0x10, 0x10, 0xFF] : List Nat).get? 0 = some 0x10 ∧
    SEQ_MESSAGES 0x10 = none ∧
    (parse_seq_loop [0x10, 0x10, 0xFF] SeqVersion.MM 3 0 {} =
      parse_seq_loop [0x10, 0x10, 0xFF] SeqVersion.MM 2 1 {} ∧
     OLD_PARSE_LOOP [0x10, 0x10, 0xFF] SeqVersion.MM 3 0 0 {} =
      OLD_PARSE_LOOP [0x10, 0x10, 0xFF] SeqVersion.MM 2 1 1 {}) :=
  ⟨by decide, by decide,
    c4_unknown_opcode_skips_one_byte [0x10, 0x10, 0xFF] SeqVersion.MM 2 0 0 0
      {} 0x10 0x10 (by decide) (by decide) (by decide) (by decide)⟩

/-! ## C5 -/

/-- C5: on a variable-length delay opcode `0xFD` at any offset, the reader
inspects the byte right after the opcode; when its high bit is set the
instruction carries one big-endian 16-bit argument and the decoder advances
by 3 bytes, otherwise one 8-bit argument and the decoder advances by 2
bytes, and the reported argument address is the opcode offset plus 1 in both
cases (`MessageData` fields are argument address 1 and 2, message byte,
argument 1 and 2, advance). -/
theorem c5_variable_delay_reader (f : List Nat) (version : SeqVersion)
    (fuel c : Nat) (s : ParseState) (L : Nat)
    (hop : f.get? c = some 0xFD) (hlen : f.get? (c + 1) = some L) :
    ((L &&& 0x80 ≠ 0) → ∀ b2, f.get? (c + 2) = some b2 →
      read_argvar f c L =
        some ⟨some (c + 1), none, 0xFD, some (L * 256 + b2, ArgSize.u16), none, 3⟩ ∧
      parse_seq_loop f version (fuel + 1) c s =
        parse_seq_loop f version fuel (c + 3)
          (applyEmit s ⟨"delay", ReadFunc.rargvar, none, none, none, none⟩
            ⟨some (c + 1), none, 0xFD, some (L * 256 + b2, ArgSize.u16), none, 3⟩
            0xFD c)) ∧
    ((L &&& 0x80 = 0) →
      read_argvar f c L =
        some ⟨some (c + 1), none, 0xFD, some (L, ArgSize.u8), none, 2⟩ ∧
      parse_seq_loop f version (fuel + 1) c s =
        parse_seq_loop f version fuel (c + 2)
          (applyEmit s ⟨"delay", ReadFunc.rargvar, none, none, none, none⟩
            ⟨some (c + 1), none, 0xFD, some (L, ArgSize.u8), none, 2⟩
            0xFD c)) := by
  have htab : SEQ_MESSAGES 0xFD =
      some ⟨"delay", ReadFunc.rargvar, none, none, none, none⟩ := by decide
  constructor
  · intro hhigh b2 hb2
    have hrd : read_argvar f c L =
        some ⟨some (c + 1), none, 0xFD, some (L * 256 + b2, ArgSize.u16), none, 3⟩ := by
      unfold read_argvar
      rw [if_pos hhigh, hop, hlen, hb2]
      rfl
    refine ⟨hrd, ?_⟩
    simp only [parse_seq_loop, hop, htab, hlen, runReader, hrd]
    norm_num
  · intro hlow
    have hrd : read_argvar f c L =
        some ⟨some (c + 1), none, 0xFD, some (L, ArgSize.u8), none, 2⟩ := by
      unfold read_argvar
      rw [if_neg (not_ne_iff.mpr hlow), hop, hlen]
      rfl
    refine ⟨hrd, ?_⟩
    simp only [parse_seq_loop, hop, htab, hlen, runReader, hrd]
    norm_num

/-- Witness for C5 on a concrete delay with the high bit set (`FD 81 05`):
argument `0x8105`, advance 3, argument address 1. -/
theorem c5_witness :
    ([0xFD, 0x81, 0x05, 0xFF] : List Nat).get? 0 = some 0xFD ∧
    ([0xFD, 0x81, 0x05, 0xFF] : List Nat).get? 1 = some 0x81 ∧
    read_argvar [0xFD, 0x81, 0x05, 0xFF] 0 0x81 =
      some ⟨some 1, none, 0xFD, some (0x8105, ArgSize.u16), none, 3⟩ := by
  refine ⟨by decide, by decide, ?_⟩
  exact ((c5_variable_delay_reader [0xFD, 0x81, 0x05, 0xFF] SeqVersion.MM 4 0
    {} 0x81 (by decide) (by decide)).1 (by decide) 0x05 (by decide)).1

/-! ## C10 -/

/-- Numbers below 16 are a single hex digit for any fuel. -/
theorem hexDigitsRevGo_lt (fuel n : Nat) (h : n < 16) :
    hexDigitsRevGo fuel n = [n] := by
  cases fuel with
  | zero => rfl
  | succ fuel => simp [hexDigitsRevGo, h]

/-- Unfolding step of the digit computation for numbers of 16 and above. -/
theorem hexDigitsRevGo_ge (fuel n : Nat) (h : 16 ≤ n) :
    hexDigitsRevGo (fuel + 1) n = n % 16 :: hexDigitsRevGo fuel (n / 16) := by
  simp [hexDigitsRevGo, Nat.not_lt.mpr h]

/-- Every produced digit value is below 16 when the fuel suffices. -/
theorem hexDigitsRevGo_digits_lt (fuel : Nat) :
    ∀ n, n ≤ fuel → ∀ d ∈ hexDigitsRevGo fuel n, d < 16 := by
  induction fuel with
  | zero =>
    intro n hn d hd
    simp only [hexDigitsRevGo] at hd
    simp only [List.mem_singleton] at hd
    omega
  | succ fuel ih =>
    intro n hn d hd
    by_cases h16 : n < 16
    · rw [hexDigitsRevGo_lt _ _ h16] at hd
      simp only [List.mem_singleton] at hd
      omega
    · rw [hexDigitsRevGo_ge _ _ (by omega)] at hd
      rcases List.mem_cons.mp hd with rfl | hd
      · omega
      · exact ih (n / 16) (by omega) d hd

/-- Digit-value bound for `hexDigitsRev` itself. -/
theorem hexDigitsRev_digits_lt (n : Nat) : ∀ d ∈ hexDigitsRev n, d < 16 :=
  hexDigitsRevGo_digits_lt n n le_rfl

/-- One digit for values up to `0xF`. -/
theorem hexDigitsRev_eq1 (n : Nat) (h : n < 16) : hexDigitsRev n = [n] :=
  hexDigitsRevGo_lt n n h

/-- Two digits for `0x10`-`0xFF`. -/
theorem hexDigitsRev_eq2 (n : Nat) (h1 : 16 ≤ n) (h2 : n ≤ 0xFF) :
    hexDigitsRev n = [n % 16, n / 16] := by
  unfold hexDigitsRev
  obtain ⟨m, rfl⟩ : ∃ m, n = m + 1 := ⟨n - 1, by omega⟩
  rw [hexDigitsRevGo_ge _ _ h1, hexDigitsRevGo_lt _ _ (by omega)]

/-- Three digits for `0x100`-`0xFFF`. -/
theorem hexDigitsRev_eq3 (n : Nat) (h1 : 0x100 ≤ n) (h2 : n ≤ 0xFFF) :
    hexDigitsRev n = [n % 16, n / 16 % 16, n / 16 / 16] := by
  unfold hexDigitsRev
  obtain ⟨m, rfl⟩ : ∃ m, n = m + 1 := ⟨n - 1, by omega⟩
  rw [hexDigitsRevGo_ge _ _ (by omega)]
  obtain ⟨k, rfl⟩ : ∃ k, m = k + 1 := ⟨m - 1, by omega⟩
  rw [hexDigitsRevGo_ge _ _ (by omega), hexDigitsRevGo_lt _ _ (by omega)]

/-- Four digits for `0x1000`-`0xFFFF`. -/
theorem hexDigitsRev_eq4 (n : Nat) (h1 : 0x1000 ≤ n) (h2 : n ≤ 0xFFFF) :
    hexDigitsRev n = [n % 16, n / 16 % 16, n / 16 / 16 % 16, n / 16 / 16 / 16] := by
  unfold hexDigitsRev
  obtain ⟨m, rfl⟩ : ∃ m, n = m + 1 := ⟨n - 1, by omega⟩
  rw [hexDigitsRevGo_ge _ _ (by omega)]
  obtain ⟨k, rfl⟩ : ∃ k, m = k + 1 := ⟨m - 1, by omega⟩
  rw [hexDigitsRevGo_ge _ _ (by omega)]
  obtain ⟨j, rfl⟩ : ∃ j, k = j + 1 := ⟨k - 1, by omega⟩
  rw [hexDigitsRevGo_ge _ _ (by omega), hexDigitsRevGo_lt _ _ (by omega)]

/-- Uppercasing a lowercase hex digit character gives the uppercase digit. -/
theorem toUpper_hexDigitL (d : Nat) (h : d < 16) :
    Char.toUpper (hexDigitL d) = hexDigitU d := by
  have hall : ∀ x, x < 16 → Char.toUpper (hexDigitL x) = hexDigitU x := by decide
  exact hall d h

/-- Python `.upper()` turns `hex(n)[2:]` into `f'{n:X}'`. -/
theorem map_toUpper_hexMinL (n : Nat) :
    (hexMinL n).map Char.toUpper = hexMinU n := by
  unfold hexMinL hexMinU
  rw [List.map_map]
  apply List.map_congr_left
  intro d hd
  exact toUpper_hexDigitL d
    (hexDigitsRev_digits_lt n d (List.mem_reverse.mp hd))

/-- Every character of the zero-padded four-digit rendering is an uppercase
hexadecimal digit. -/
theorem pad4U_chars (n : Nat) :
    ∀ ch ∈ pad4U n, ('0' ≤ ch ∧ ch ≤ '9') ∨ ('A' ≤ ch ∧ ch ≤ 'F') := by
  intro ch hch
  unfold pad4U padLeft at hch
  rcases List.mem_append.mp hch with hrep | hdig
  · rw [List.eq_of_mem_replicate hrep]
    left
    constructor <;> decide
  · unfold hexMinU at hdig
    obtain ⟨d, hd, rfl⟩ := List.mem_map.mp hdig
    have hd16 : d < 16 := hexDigitsRev_digits_lt n d (List.mem_reverse.mp hd)
    have hall : ∀ x, x < 16 →
        ('0' ≤ hexDigitU x ∧ hexDigitU x ≤ '9') ∨
        ('A' ≤ hexDigitU x ∧ hexDigitU x ≤ 'F') := by decide
    exact hall d hd16

/-- Core of C10: after uppercasing, the old branch-padded address rendering
is exactly `'@'` followed by the new four-digit zero-padded rendering, which
always has exactly four digits for addresses up to `0xFFFF`. -/
theorem oldHexAddr_upper_eq (addr : Nat) (h : addr ≤ 0xFFFF) :
    (oldHexAddr addr).map Char.toUpper = '@' :: pad4U addr ∧
    (pad4U addr).length = 4 := by
  have hat : Char.toUpper '@' = '@' := by decide
  have h0 : Char.toUpper '0' = '0' := by decide
  have hmap := map_toUpper_hexMinL addr
  by_cases h4 : 0x1000 ≤ addr
  · have hlen : (hexMinU addr).length = 4 := by
      simp [hexMinU, hexDigitsRev_eq4 addr h4 h]
    have hpad : pad4U addr = hexMinU addr := by
      simp [pad4U, padLeft, hlen]
    refine ⟨?_, by simp [hpad, hlen]⟩
    unfold oldHexAddr
    rw [if_pos h4]
    simp [hat, hmap, hpad]
  · by_cases h3 : 0x100 ≤ addr
    · have hlen : (hexMinU addr).length = 3 := by
        simp [hexMinU, hexDigitsRev_eq3 addr h3 (by omega)]
      have hpad : pad4U addr = '0' :: hexMinU addr := by
        simp [pad4U, padLeft, hlen, List.replicate]
      refine ⟨?_, by simp [hpad, hlen]⟩
      unfold oldHexAddr
      rw [if_neg h4, if_pos h3]
      simp [hat, h0, hmap, hpad]
    · by_cases h2 : 0x10 ≤ addr
      · have hlen : (hexMinU addr).length = 2 := by
          simp [hexMinU, hexDigitsRev_eq2 addr h2 (by omega)]
        have hpad : pad4U addr = '0' :: '0' :: hexMinU addr := by
          simp [pad4U, padLeft, hlen, List.replicate]
        refine ⟨?_, by simp [hpad, hlen]⟩
        unfold oldHexAddr
        rw [if_neg h4, if_neg h3, if_pos h2]
        simp [hat, h0, hmap, hpad]
      · have hlen : (hexMinU addr).length = 1 := by
          simp [hexMinU, hexDigitsRev_eq1 addr (by omega)]
        have hpad : pad4U addr = '0' :: '0' :: '0' :: hexMinU addr := by
          simp [pad4U, padLeft, hlen, List.replicate]
        refine ⟨?_, by simp [hpad, hlen]⟩
        unfold oldHexAddr
        rw [if_neg h4, if_neg h3, if_neg h2]
        simp [hat, h0, hmap, hpad]

/-- C10: for every address up to `0xFFFF`, the old implementation's
`'@'`-prefixed padded hexadecimal (the `hex_addr` built inside
`GET_MSG_STRING`, after the uppercase conversion applied to the whole
message) equals the rewrite's `format_addr` output, and that output is `'@'`
followed by exactly four uppercase hexadecimal digits. -/
theorem c10_format_addr_refines_old (addr : Nat) (h : addr ≤ 0xFFFF) :
    String.mk ((oldHexAddr addr).map Char.toUpper) = format_addr addr ∧
    (format_addr addr).data.length = 5 ∧
    (format_addr addr).data.head? = some '@' ∧
    ∀ ch ∈ (format_addr addr).data.tail,
      ('0' ≤ ch ∧ ch ≤ '9') ∨ ('A' ≤ ch ∧ ch ≤ 'F') := by
  obtain ⟨heq, hlen⟩ := oldHexAddr_upper_eq addr h
  have hfa : format_addr addr = String.mk ('@' :: pad4U addr) := by
    have hslen : ('@' :: pad4U addr).length = 5 := by simp [hlen]
    simp only [format_addr]
    rw [hslen]
    simp
  refine ⟨?_, ?_, ?_, ?_⟩
  · rw [heq, hfa]
  · rw [hfa]
    simp [hlen]
  · rw [hfa]
    simp
  · rw [hfa]
    intro ch hch
    exact pad4U_chars addr ch (by simpa using hch)

/-- Witness for C10 at the concrete address `0xBEE`. -/
theorem c10_witness :
    (0xBEE ≤ 0xFFFF) ∧
    String.mk ((oldHexAddr 0xBEE).map Char.toUpper) = format_addr 0xBEE ∧
    format_addr 0xBEE = "@0BEE" :=
  ⟨by decide, (c10_format_addr_refines_old 0xBEE (by decide)).1, by decide⟩
